/-
Verification of the plex_tools repository against its natural-language
specification.  The Lean definitions below are shallow embeddings of the
Python source:

* `src/migrate_access/sync_plex_shares_by_library_name.py`
  (`ensure_union_share_on_destination`),
* `src/migrate_playlists/migrate_plex.py`
  (`DestIndex.add_item`, `build_destination_index`, the GUID matcher loops,
  the dest-key dedup loops, `create_playlist_with_batches` and its `chunks`
  helper, `_diff_fields`),
* `src/library_tools/find_sd_in_plex_library.py`
  (`res_to_height`, `item_max_height`, `find_sd_items`).

Python `str.casefold()` and `str.lower()` are both modelled by
`py_lower`, `str.strip()` by `py_strip` (the inputs of interest are
ASCII), and `int(s)` on a nonnegative digit string by `String.toNat?`.
Remote API calls are modelled as oracle functions returning `Except`.
-/
import Mathlib

namespace PlexTools

/-- Python `str.lower()` (and, on the ASCII titles at hand, `str.casefold()`):
lowercase every character.  Defined over the character list so that concrete
instances reduce. -/
def py_lower (s : String) : String := ⟨s.data.map Char.toLower⟩

/-- Python `str.strip()`: drop leading and trailing whitespace. -/
def py_strip (s : String) : String :=
  ⟨((s.data.dropWhile Char.isWhitespace).reverse.dropWhile
      Char.isWhitespace).reverse⟩

/-! ## Share reconciler
Embedding of `ensure_union_share_on_destination`
(src/migrate_access/sync_plex_shares_by_library_name.py, lines 239-250).
Sets of library titles are `Finset String`; the destination catalog is the
key set of `dest_title_to_section`, i.e. the casefolded destination titles. -/

/-- Lines 243: `desired_titles_existing = {t for t in desired_titles if
t.casefold() in dest_title_to_section}`. -/
def desired_existing (desired catalogKeys : Finset String) : Finset String :=
  desired.filter (fun t => py_lower t ∈ catalogKeys)

/-- Lines 243-246 of `ensure_union_share_on_destination`: filter the desired
titles to those present on the destination, union with the current titles,
and subtract the current titles to obtain the additions.  Returns
`(to_add, final_titles)`. -/
def ensure_union_share (current desired catalogKeys : Finset String) :
    Finset String × Finset String :=
  let desiredExisting := desired.filter (fun t => py_lower t ∈ catalogKeys)
  let finalTitles := current ∪ desiredExisting
  let toAdd := finalTitles \ current
  (toAdd, finalTitles)

/-- Lines 246-269: the function returns early (performing no update call)
when `to_add` is empty; `account.updateFriend` is only reached when
`to_add` is nonempty and `dry_run` is false. -/
def performs_update (current desired catalogKeys : Finset String)
    (dryRun : Bool) : Bool :=
  decide ((ensure_union_share current desired catalogKeys).1 ≠ ∅) && !dryRun

/-! ## Destination identifier index and matcher
Embedding of `collect_guids`, `DestIndex.add_item` and the GUID matching
loops of src/migrate_playlists/migrate_plex.py. -/

/-- A destination media item: its stable per-server identifier (`ratingKey`,
absent when the object exposes none) and its external provider identifiers
(`guids`). -/
structure Item where
  ratingKey : Option Nat
  guids : List String
deriving DecidableEq

/-- `collect_guids` (lines 79-88): keeps the truthy (nonempty) guid ids and
strips surrounding whitespace. -/
def collect_guids (it : Item) : List String :=
  (it.guids.filter (fun g => g ≠ "")).map py_strip

/-- The in-memory index `DestIndex.by_guid`, a mapping from lowercased guid
string to item. -/
def GuidIndex : Type := String → Option Item

/-- The empty mapping (`DestIndex.__init__`). -/
def empty_index : GuidIndex := fun _ => none

/-- One Python dict assignment `self.by_guid[key] = it`. -/
def index_insert (idx : GuidIndex) (k : String) (it : Item) : GuidIndex :=
  fun q => if q = k then some it else idx q

/-- `DestIndex.add_item` (lines 105-108): `for gid in collect_guids(it):
self.by_guid[gid.lower()] = it`. -/
def add_item (idx : GuidIndex) (it : Item) : GuidIndex :=
  (collect_guids it).foldl (fun m gid => index_insert m (py_lower gid) it) idx

/-- `build_destination_index` (lines 111-130), restricted to the item
registration it performs: every enumerated destination item is passed to
`add_item` in enumeration order. -/
def build_index (items : List Item) : GuidIndex :=
  items.foldl add_item empty_index

/-- The key under which a raw guid string is registered: stripped by
`collect_guids`, lowercased by `add_item`. -/
def guid_key (g : String) : String := py_lower (py_strip g)

/-- Whether an item exposes a given index key through one of its guids. -/
def exposes (it : Item) (k : String) : Bool :=
  (collect_guids it).any (fun g => py_lower g == k)

/-- Specification-side description of the index contents: the item stored
under a key is the LAST item of the registration sequence that exposes it
(Python dict assignment overwrites). -/
def last_wins (items : List Item) (k : String) : Option Item :=
  items.reverse.find? (fun it => exposes it k)

/-- The matcher loop (lines 547-552 of `migrate_playlists`, likewise in
`migrate_collections` and `sync_metadata`): `for gid in guids: matched =
idx.by_guid.get(gid); if matched: break`, over the lowercased collected
guids. -/
def match_first (idx : GuidIndex) (guids : List String) : Option Item :=
  match guids with
  | [] => none
  | g :: rest =>
    match idx (py_lower g) with
    | some it => some it
    | none => match_first idx rest

/-- Matching a source item against the index: the loop runs over
`[g.lower() for g in collect_guids(it)]`; `get` already receives the
lowercased key. -/
def match_item (idx : GuidIndex) (it : Item) : Option Item :=
  match_first idx (collect_guids it)

/-! ## Dedup of destination identifiers
Embedding of the `dest_keys` loop of `migrate_playlists` (lines 564-570)
and the `seen` loop of `migrate_collections` (lines 331-343). -/

/-- `rating_key` (lines 91-95): reads the `ratingKey` attribute (with a
`rating_key` fallback), `None` when absent. -/
def rating_key (it : Item) : Option Nat := it.ratingKey

/-- Lines 564-570 of `migrate_playlists`: walk `dest_items`, keep the rating
key of each item unless it is `None` or already seen. -/
def dest_keys_loop : List Item → List Nat → List Nat
  | [], _ => []
  | it :: rest, seen =>
    match rating_key it with
    | none => dest_keys_loop rest seen
    | some rk =>
      if rk ∈ seen then dest_keys_loop rest seen
      else rk :: dest_keys_loop rest (rk :: seen)

/-- The full `dest_keys` computation starting from an empty `seen_keys`
set. -/
def dest_keys (items : List Item) : List Nat := dest_keys_loop items []

/-- Lines 338-343 of `migrate_collections`: the matched destination items
are kept, skipping any whose rating key is `None` or already seen. -/
def coll_dedup_loop : List Item → List Nat → List Item
  | [], _ => []
  | it :: rest, seen =>
    match rating_key it with
    | none => coll_dedup_loop rest seen
    | some rk =>
      if rk ∈ seen then coll_dedup_loop rest seen
      else it :: coll_dedup_loop rest (rk :: seen)

/-- The collection dedup starting from an empty `seen` set. -/
def coll_dedup (items : List Item) : List Item := coll_dedup_loop items []

/-- Specification-side first-occurrence dedup of a list of keys. -/
def dedup_first : List Nat → List Nat
  | [] => []
  | x :: xs => x :: dedup_first (xs.filter (fun y => y ≠ x))
termination_by l => l.length
decreasing_by
  simp only [List.length_cons]
  exact Nat.lt_succ_of_le (List.length_filter_le _ _)

/-! ## Batching
Embedding of the `chunks` helper of `create_playlist_with_batches`
(lines 169-171): `for i in range(0, len(lst), n): yield lst[i:i+n]`.
Python `range` with step 0 raises `ValueError`; the callers always pass
`batch_size > 0` (CLI default 100), and the model returns `[]` for
`n = 0`. -/

/-- The `chunks` generator: successive slices of length `n`. -/
def chunks (n : Nat) (l : List α) : List (List α) :=
  if _ : n = 0 then []
  else
    match l with
    | [] => []
    | x :: xs => (x :: xs).take n :: chunks n ((x :: xs).drop n)
termination_by l.length
decreasing_by
  rename_i hn
  simp only [List.length_drop, List.length_cons]
  omega

/-! ## Error policy of the batched mutator
Embedding of the chunk loops of `create_playlist_with_batches`
(lines 205-222 for the create path, 226-243 for the append path).  The
remote API calls (`pl.addItems`, `plex.createPlaylist`, `plex.query`,
`plex.fetchItem`) are modelled as oracle functions returning `Except`.
Item references handed to the batcher are the integer rating keys
(`dest_keys` in `migrate_playlists`). -/

/-- Exception classes relevant to the batcher: `plexapi.exceptions.BadRequest`
(caught and inspected), `RuntimeError` (raised for empty creates), and any
other exception class. -/
inductive PlexError where
  | badRequest (msg : String)
  | runtimeError (msg : String)
  | otherError (msg : String)
deriving DecidableEq

/-- The message fragment recognized as the spurious empty-batch rejection. -/
def empty_batch_msg : String := "Must include items to add"

/-- Python `needle in str(e)` substring test. -/
def contains_substr (hay needle : String) : Bool :=
  decide (needle.toList <:+: hay.toList)

/-- The guard `isinstance(e, BadRequest) and "Must include items to add" in
str(e)` deciding whether the fallback runs. -/
def is_spurious_empty (e : PlexError) : Bool :=
  match e with
  | .badRequest msg => contains_substr msg empty_batch_msg
  | _ => false

/-- The per-item retry (lines 214-220): each key of the chunk is added on
its own; a failing single add is logged and skipped.  Returns the keys
whose single add failed (the logged misses). -/
def single_failures (addSingle : Nat → Except PlexError Unit)
    (chunk : List Nat) : List Nat :=
  chunk.filter (fun k =>
    match addSingle k with
    | .ok _ => false
    | .error _ => true)

/-- One iteration of the chunk loop (lines 205-222): try the batched add;
on a spurious empty-batch `BadRequest` fall back to single-item adds, on
any other error re-raise. -/
def add_chunk_with_fallback (addChunk : List Nat → Except PlexError Unit)
    (addSingle : Nat → Except PlexError Unit) (chunk : List Nat) :
    Except PlexError (List Nat) :=
  match addChunk chunk with
  | .ok _ => .ok []
  | .error e =>
    if is_spurious_empty e then .ok (single_failures addSingle chunk)
    else .error e

/-- The whole chunk loop: chunks are processed in order, collected misses
are accumulated, and a non-spurious error aborts the loop. -/
def process_chunks (addChunk : List Nat → Except PlexError Unit)
    (addSingle : Nat → Except PlexError Unit) :
    List (List Nat) → Except PlexError (List Nat)
  | [] => .ok []
  | c :: rest =>
    match add_chunk_with_fallback addChunk addSingle c with
    | .error e => .error e
    | .ok missed =>
      match process_chunks addChunk addSingle rest with
      | .error e => .error e
      | .ok ms => .ok (missed ++ ms)

/-- A destination playlist handle. -/
structure Playlist where
  plId : Nat
deriving DecidableEq

/-- The message of the `RuntimeError` raised when creating with no items
(line 181). -/
def no_items_msg : String := "No items to create a playlist with"

/-- `create_playlist_with_batches` (lines 161-244).  Oracles:
`findExisting` is `find_existing_playlist` before any mutation,
`createSeed` is `plex.createPlaylist` on the seed item, `manualCreate` is
the manual `plex.query("/playlists", ...)` fallback, `findAfterManual` is
the `find_existing_playlist` lookup after the manual create, `addChunk` and
`addSingle` are `pl.addItems` on a coerced chunk and on one fetched item.
Keys are integers (`dest_keys`), so the seed rating key is always
available.  The result carries the playlist and the keys whose single adds
failed. -/
def create_playlist_with_batches
    (findExisting : Option Playlist)
    (createSeed : Nat → Except PlexError Playlist)
    (manualCreate : Nat → Except PlexError Unit)
    (findAfterManual : Option Playlist)
    (addChunk : Playlist → List Nat → Except PlexError Unit)
    (addSingle : Playlist → Nat → Except PlexError Unit)
    (replace : Bool) (items : List Nat) (batchSize : Nat) :
    Except PlexError (Playlist × List Nat) :=
  let existing := if replace then none else findExisting
  match existing with
  | some pl =>
    match process_chunks (addChunk pl) (addSingle pl) (chunks batchSize items) with
    | .error e => .error e
    | .ok missed => .ok (pl, missed)
  | none =>
    match items with
    | [] => .error (.runtimeError no_items_msg)
    | seed :: rest =>
      let plRes : Except PlexError Playlist :=
        match createSeed seed with
        | .ok pl => .ok pl
        | .error e =>
          if is_spurious_empty e then
            match manualCreate seed with
            | .error e2 => .error e2
            | .ok _ =>
              match findAfterManual with
              | some pl => .ok pl
              | none => .error e
          else .error e
      match plRes with
      | .error e => .error e
      | .ok pl =>
        match process_chunks (addChunk pl) (addSingle pl) (chunks batchSize rest) with
        | .error e => .error e
        | .ok missed => .ok (pl, missed)

/-- The caller guard (lines 580-582 of `migrate_playlists`): a playlist
whose matched destination key list is empty is skipped before
`create_playlist_with_batches` is called. -/
def migrate_playlist_step (destKeys : List Nat)
    (create : List Nat → Except PlexError (Playlist × List Nat)) :
    Option (Except PlexError (Playlist × List Nat)) :=
  if destKeys = [] then none else some (create destKeys)

/-! ## SD scan
Embedding of src/library_tools/find_sd_in_plex_library.py:
`res_to_height` (lines 39-56), `item_max_height` (lines 59-87) and the
movie branch of `find_sd_items` (lines 114-143).  Python truthiness of an
integer height (`if h:`) treats both `None` and `0` as falsy. -/

/-- The resolution-label table of `res_to_height`. -/
def res_mapping : List (String × Nat) :=
  [("4k", 2160), ("uhd", 2160), ("2160", 2160), ("2160p", 2160),
   ("1080", 1080), ("1080p", 1080), ("fhd", 1080),
   ("720", 720), ("720p", 720), ("hd", 720),
   ("576", 576), ("576p", 576),
   ("480", 480), ("480p", 480), ("sd", 480)]

/-- `res_to_height`: `None` or empty is unrecognized; otherwise lowercase,
look the label up in the table, and fall back to parsing the string as an
integer. -/
def res_to_height (res : Option String) : Option Nat :=
  match res with
  | none => none
  | some r =>
    if r = "" then none
    else
      let s := py_lower r
      match res_mapping.lookup s with
      | some h => some h
      | none => s.toNat?

/-- One video stream of a media part (`streamType == 1` marks video). -/
structure VideoStream where
  streamType : Nat
  height : Option Nat
deriving DecidableEq

/-- One media part with its streams. -/
structure MediaPart where
  streams : List VideoStream
deriving DecidableEq

/-- One media version: optional container height, optional resolution
label, and its parts. -/
structure Media where
  height : Option Nat
  videoResolution : Option String
  parts : List MediaPart
deriving DecidableEq

/-- A movie item with its media versions. -/
structure MovieItem where
  title : String
  media : List Media
deriving DecidableEq

/-- Python truthiness of an optional integer: `None` and `0` are falsy. -/
def truthy_nat (v : Option Nat) : Option Nat :=
  match v with
  | some h => if h = 0 then none else some h
  | none => none

/-- The stream fallback of `item_max_height` (lines 74-79): maximum height
over the video streams with a truthy height, starting from `h or 0 = 0`. -/
def streams_max (m : Media) : Nat :=
  ((m.parts.map MediaPart.streams).flatten).foldl
    (fun acc s =>
      if s.streamType = 1 then
        match truthy_nat s.height with
        | some hv => max acc hv
        | none => acc
      else acc) 0

/-- The per-media height of `item_max_height` (lines 62-82): container
height first, then `res_to_height(videoResolution)`, then the stream scan;
the result is appended only when truthy. -/
def media_height (m : Media) : Option Nat :=
  match truthy_nat m.height with
  | some h => some h
  | none =>
    match truthy_nat (res_to_height m.videoResolution) with
    | some h => some h
    | none => truthy_nat (some (streams_max m))

/-- `item_max_height`: the maximum of the collected per-media heights,
`None` when no media version yields one. -/
def item_max_height (it : MovieItem) : Option Nat :=
  let heights := it.media.filterMap media_height
  match heights with
  | [] => none
  | _ => some (heights.foldl max 0)

/-- The movie branch of `find_sd_items` (lines 122-143): yield the items
whose maximum height is known and strictly below `min_hd_height`, paired
with that height (the `max_height` field of the yielded row). -/
def find_sd_items (items : List MovieItem) (min_hd_height : Nat) :
    List (MovieItem × Nat) :=
  items.filterMap fun mv =>
    match item_max_height mv with
    | none => none
    | some mh => if mh < min_hd_height then some (mv, mh) else none

/-! ## Field diff
Embedding of `_diff_fields` (lines 381-388 of migrate_plex.py).  An item is
modelled as a map from field name to optional string value (`getattr(x, f,
None)`); `str(sv or "").strip()` maps `None` and `""` to `""` and trims the
rest, which on string-valued fields is `py_strip (sv.getD "")`. -/

/-- `_diff_fields`: the fields whose trimmed string representations differ,
with the raw source and destination values. -/
def diff_fields (src dest : String → Option String) (fields : List String) :
    List (String × Option String × Option String) :=
  fields.filterMap fun f =>
    if py_strip ((src f).getD "") ≠ py_strip ((dest f).getD "") then
      some (f, src f, dest f)
    else none

/-! ## Concrete instances used by the witnesses -/

/-- A chunk-add oracle that rejects the chunk `[1, 2]` with the spurious
empty-batch error and accepts everything else. -/
def api_chunk_demo : List Nat → Except PlexError Unit := fun c =>
  if c = [1, 2] then .error (.badRequest "Must include items to add") else .ok ()

/-- A single-add oracle that fails on key `2` with a non-BadRequest error. -/
def api_single_demo : Nat → Except PlexError Unit := fun k =>
  if k = 2 then .error (.otherError "boom") else .ok ()

/-- A seed-create oracle that always succeeds. -/
def seed_create_demo : Nat → Except PlexError Playlist := fun _ => .ok ⟨0⟩

/-- A manual-create oracle that always succeeds. -/
def manual_create_demo : Nat → Except PlexError Unit := fun _ => .ok ()

/-- A chunk-add oracle that always succeeds. -/
def add_chunk_demo : Playlist → List Nat → Except PlexError Unit :=
  fun _ _ => .ok ()

/-- A single-add oracle that always succeeds. -/
def add_single_demo : Playlist → Nat → Except PlexError Unit :=
  fun _ _ => .ok ()

/-- A standard-definition movie: one media version of container height 480. -/
def mv480 : MovieItem := ⟨"Old Movie", [⟨some 480, none, []⟩]⟩

/-! # Theorems -/

/-- C1: the share reconciler filters the desired titles case-insensitively
to those present in the destination catalog, the final set is the union of
the current set and the filtered-desired set, the to-add set is the final
set minus the current set, and consequently the final set is always a
superset of the current set (no grant is ever removed). -/
theorem c1_share_reconciler (current desired catalogKeys : Finset String) :
    (∀ t, t ∈ desired_existing desired catalogKeys ↔
        t ∈ desired ∧ py_lower t ∈ catalogKeys) ∧
    (ensure_union_share current desired catalogKeys).2 =
      current ∪ desired_existing desired catalogKeys ∧
    (ensure_union_share current desired catalogKeys).1 =
      (ensure_union_share current desired catalogKeys).2 \ current ∧
    current ⊆ (ensure_union_share current desired catalogKeys).2 := by
  refine ⟨fun t => ?_, rfl, rfl, ?_⟩
  · simp [desired_existing]
  · exact Finset.subset_union_left

/-- C5: share reconciliation is idempotent.  When the destination already
holds the final set of a previous run over the same desired titles and
catalog, the second run computes an empty to-add set and performs no update
call, whatever the dry-run flag. -/
theorem c5_idempotent (current desired catalogKeys : Finset String)
    (dryRun : Bool) :
    (ensure_union_share (ensure_union_share current desired catalogKeys).2
        desired catalogKeys).1 = ∅ ∧
    performs_update (ensure_union_share current desired catalogKeys).2
        desired catalogKeys dryRun = false := by
  have hempty :
      (ensure_union_share (ensure_union_share current desired catalogKeys).2
        desired catalogKeys).1 = ∅ := by
    simp only [ensure_union_share]
    rw [Finset.union_assoc, Finset.union_self, Finset.sdiff_self]
  refine ⟨hempty, ?_⟩
  simp [performs_update, hempty]

/-- Registering the guids of one item writes the same item under every key,
so the fold reduces to a single conditional lookup. -/
theorem foldl_index_insert_apply (it : Item) (gs : List String)
    (idx : GuidIndex) (k : String) :
    (gs.foldl (fun m gid => index_insert m (py_lower gid) it) idx) k =
      if gs.any (fun g => py_lower g == k) then some it else idx k := by
  induction gs generalizing idx with
  | nil => rfl
  | cons g rest ih =>
    simp only [List.foldl_cons, List.any_cons, ih]
    by_cases hg : py_lower g = k
    · by_cases hr : rest.any (fun g => py_lower g == k) <;>
        simp [hr, hg, index_insert]
    · have : (py_lower g == k) = false := by simpa using hg
      by_cases hr : rest.any (fun g => py_lower g == k) <;>
        simp [hr, this, index_insert, Ne.symm hg]

/-- `add_item` overwrites every key exposed by the item and leaves the rest
of the index unchanged. -/
theorem add_item_apply (idx : GuidIndex) (it : Item) (k : String) :
    add_item idx it k = if exposes it k then some it else idx k := by
  simp only [add_item, exposes]
  exact foldl_index_insert_apply it (collect_guids it) idx k

/-- C2 counterexample: two distinct items exposing the same identifier.
The first-seen item of the registration order exposes the duplicated key,
yet the built index stores the second (later) item under it, so the
first-seen-wins claim is false. -/
theorem c2_counterexample :
    exposes ⟨some 1, ["G"]⟩ "g" = true ∧
    exposes ⟨some 2, ["G"]⟩ "g" = true ∧
    (⟨some 1, ["G"]⟩ : Item) ≠ ⟨some 2, ["G"]⟩ ∧
    build_index [⟨some 1, ["G"]⟩, ⟨some 2, ["G"]⟩] "g" =
      some ⟨some 2, ["G"]⟩ ∧
    build_index [⟨some 1, ["G"]⟩, ⟨some 2, ["G"]⟩] "g" ≠
      some ⟨some 1, ["G"]⟩ := by
  refine ⟨by decide, by decide, by decide, rfl, by decide⟩

/-- C2 amended: during identifier-index construction, a duplicated
identifier maps to the LAST item of the registration sequence that exposes
it (Python dict assignment is last-write-wins). -/
theorem c2_last_write_wins (items : List Item) (k : String) :
    build_index items k = last_wins items k := by
  induction items using List.reverseRecOn with
  | nil => rfl
  | append_singleton l it ih =>
    have hb : build_index (l ++ [it]) k = add_item (build_index l) it k := by
      simp only [build_index, List.foldl_append, List.foldl_cons,
        List.foldl_nil]
    rw [hb, add_item_apply]
    have hl : last_wins (l ++ [it]) k =
        if exposes it k then some it else last_wins l k := by
      simp only [last_wins, List.reverse_append, List.reverse_cons,
        List.reverse_nil, List.nil_append, List.cons_append,
        List.find?_cons]
      cases h : exposes it k <;> simp [h]
    rw [hl, ih]

/-- C6: the matcher walks the identifiers in source-provided order and
returns the index entry of the first identifier whose case-folded form is a
key of the index, and none when no identifier matches; in particular, for
identifiers `["X", "Y"]` against an index built from a single item
registered under guid `"Y"` (stored under the case-folded key `"y"`), it
returns that item. -/
theorem c6_matcher :
    (∀ (idx : GuidIndex) (guids : List String),
      match_first idx guids =
        (guids.find? (fun g => (idx (py_lower g)).isSome)).bind
          (fun g => idx (py_lower g))) ∧
    match_first (build_index [⟨some 7, ["Y"]⟩]) ["X", "Y"] =
      some ⟨some 7, ["Y"]⟩ := by
  constructor
  · intro idx guids
    induction guids with
    | nil => rfl
    | cons g rest ih =>
      simp only [match_first, List.find?_cons]
      cases h : idx (py_lower g) with
      | some it => simp [h]
      | none => simp [h, ih]
  · rfl

/-- Every element of the first-occurrence dedup comes from the input
list. -/
theorem mem_of_mem_dedup_first {a : Nat} {l : List Nat} :
    a ∈ dedup_first l → a ∈ l := by
  induction l using dedup_first.induct with
  | case1 => simp [dedup_first]
  | case2 x xs ih =>
    rw [dedup_first]
    intro h
    rcases List.mem_cons.mp h with h | h
    · simp [h]
    · exact List.mem_cons_of_mem x (List.mem_of_mem_filter (ih h))

/-- The first-occurrence dedup contains no duplicates. -/
theorem nodup_dedup_first (l : List Nat) : (dedup_first l).Nodup := by
  induction l using dedup_first.induct with
  | case1 => simp [dedup_first]
  | case2 x xs ih =>
    rw [dedup_first]
    refine List.nodup_cons.mpr ⟨fun hx => ?_, ih⟩
    have := List.of_mem_filter (mem_of_mem_dedup_first hx)
    simp at this

/-- The `dest_keys` loop, run with an arbitrary seen set, produces the
first-occurrence dedup of the unseen keys. -/
theorem dest_keys_loop_eq (items : List Item) (seen : List Nat) :
    dest_keys_loop items seen =
      dedup_first ((items.filterMap rating_key).filter
        (fun k => !(k ∈ seen : Bool))) := by
  induction items generalizing seen with
  | nil => simp [dest_keys_loop, dedup_first]
  | cons it rest ih =>
    cases hrk : rating_key it with
    | none => simp [dest_keys_loop, hrk, List.filterMap_cons, ih]
    | some rk =>
      by_cases hseen : rk ∈ seen
      · simp [dest_keys_loop, hrk, hseen, List.filterMap_cons, ih]
      · simp only [dest_keys_loop, hrk, if_neg hseen, List.filterMap_cons]
        rw [ih]
        have hfilter :
            (rest.filterMap rating_key).filter
                (fun k => !(k ∈ rk :: seen : Bool)) =
              ((rest.filterMap rating_key).filter
                (fun k => !(k ∈ seen : Bool))).filter
                (fun k => decide (k ≠ rk)) := by
          rw [List.filter_filter]
          apply List.filter_congr
          intro a _
          by_cases h1 : a = rk <;> by_cases h2 : a ∈ seen <;>
            simp [h1, h2]
        rw [hfilter]
        have : ((rest.filterMap rating_key).filter
            (fun k => !(k ∈ seen : Bool))).filter (fun k => decide (k ≠ rk)) =
            ((rest.filterMap rating_key).filter
              (fun k => !(k ∈ seen : Bool))).filter (fun y => y ≠ rk) := rfl
        rw [this, ← dedup_first]
        simp [hseen]

/-- The collection dedup loop keeps exactly the items whose keys the
playlist dedup loop keeps, in the same order. -/
theorem coll_dedup_loop_keys (items : List Item) (seen : List Nat) :
    (coll_dedup_loop items seen).filterMap rating_key =
      dest_keys_loop items seen := by
  induction items generalizing seen with
  | nil => simp [coll_dedup_loop, dest_keys_loop]
  | cons it rest ih =>
    cases hrk : rating_key it with
    | none => simp [coll_dedup_loop, dest_keys_loop, hrk, ih]
    | some rk =>
      by_cases hseen : rk ∈ seen
      · simp [coll_dedup_loop, dest_keys_loop, hrk, hseen, ih]
      · simp [coll_dedup_loop, dest_keys_loop, hrk, hseen,
          List.filterMap_cons, ih]

/-- C7: before any write, the destination identifier list built for a
playlist (`dest_keys`) and the keys of the deduplicated collection items
(`coll_dedup`) contain no duplicates, and equal the first-occurrence dedup
of the matched rating keys in encounter order. -/
theorem c7_dedup_first_occurrence (items : List Item) :
    (dest_keys items).Nodup ∧
    dest_keys items = dedup_first (items.filterMap rating_key) ∧
    ((coll_dedup items).filterMap rating_key).Nodup ∧
    (coll_dedup items).filterMap rating_key =
      dedup_first (items.filterMap rating_key) := by
  have hkeys : dest_keys items = dedup_first (items.filterMap rating_key) := by
    rw [dest_keys, dest_keys_loop_eq]
    congr 1
    apply List.filter_eq_self.mpr
    intro a _
    simp
  have hcoll : (coll_dedup items).filterMap rating_key =
      dedup_first (items.filterMap rating_key) := by
    rw [coll_dedup, coll_dedup_loop_keys, ← dest_keys, hkeys]
  refine ⟨?_, hkeys, ?_, hcoll⟩
  · rw [hkeys]; exact nodup_dedup_first _
  · rw [hcoll]; exact nodup_dedup_first _

/-- C9: the field differ reports, for a requested field, the pair of source
and destination values exactly when their trimmed string representations
differ; in particular summaries `"A"` and `"A "` produce no diff while
`"A"` and `"B"` produce a diff carrying both values. -/
theorem c9_diff_fields :
    (∀ (src dest : String → Option String) (fields : List String)
       (f : String) (sv dv : Option String),
      (f, sv, dv) ∈ diff_fields src dest fields ↔
        f ∈ fields ∧ sv = src f ∧ dv = dest f ∧
          py_strip (sv.getD "") ≠ py_strip (dv.getD "")) ∧
    diff_fields (fun _ => some "A") (fun _ => some "A ") ["summary"] = [] ∧
    diff_fields (fun _ => some "A") (fun _ => some "B") ["summary"] =
      [("summary", some "A", some "B")] := by
  refine ⟨?_, rfl, rfl⟩
  intro src dest fields f sv dv
  constructor
  · intro hmem
    obtain ⟨a, ha, heq⟩ := List.mem_filterMap.mp hmem
    by_cases hne : py_strip ((src a).getD "") ≠ py_strip ((dest a).getD "")
    · rw [if_pos hne] at heq
      simp only [Option.some.injEq, Prod.mk.injEq] at heq
      obtain ⟨rfl, hsv, hdv⟩ := heq
      refine ⟨ha, hsv.symm, hdv.symm, ?_⟩
      rw [← hsv, ← hdv]
      exact hne
    · rw [if_neg hne] at heq
      exact absurd heq (by simp)
  · rintro ⟨hf, rfl, rfl, hne⟩
    exact List.mem_filterMap.mpr ⟨f, hf, by simp [hne]⟩

/-- The `chunks` helper on the empty list. -/
theorem chunks_nil (n : Nat) : chunks n ([] : List α) = [] := by
  rw [chunks]
  split <;> rfl

/-- The `chunks` helper unfolds one slice on a nonempty list when the batch
size is positive. -/
theorem chunks_cons (n : Nat) (hn : 0 < n) (x : α) (xs : List α) :
    chunks n (x :: xs) =
      (x :: xs).take n :: chunks n ((x :: xs).drop n) := by
  rw [chunks]
  rw [dif_neg (Nat.pos_iff_ne_zero.mp hn)]

/-- C3: with a positive batch size `n`, the batched mutator splits any
sequence of length `L` into `ceil(L/n)` consecutive chunks, each of size at
most `n`, whose in-order concatenation is the original sequence. -/
theorem c3_batching (n : Nat) (hn : 0 < n) (l : List α) :
    (chunks n l).flatten = l ∧
    (∀ c ∈ chunks n l, c.length ≤ n) ∧
    (chunks n l).length = (l.length + n - 1) / n := by
  refine ⟨?_, ?_, ?_⟩
  · match l with
    | [] => rw [chunks_nil]; rfl
    | x :: xs =>
      rw [chunks_cons n hn]
      have ih := (c3_batching n hn ((x :: xs).drop n)).1
      simp [ih]
  · match l with
    | [] => rw [chunks_nil]; intro c hc; cases hc
    | x :: xs =>
      rw [chunks_cons n hn]
      intro c hc
      rcases List.mem_cons.mp hc with rfl | hc
      · simp
      · exact (c3_batching n hn ((x :: xs).drop n)).2.1 c hc
  · match l with
    | [] =>
      rw [chunks_nil]
      simp only [List.length_nil]
      symm
      apply Nat.div_eq_of_lt
      omega
    | x :: xs =>
      rw [chunks_cons n hn]
      have ih := (c3_batching n hn ((x :: xs).drop n)).2.2
      simp only [List.length_cons, ih, List.length_drop]
      rcases le_or_lt (xs.length + 1) n with hle | hlt
      · have h0 : xs.length + 1 - n = 0 := by omega
        rw [h0]
        have h1 : (0 + n - 1) / n = 0 := Nat.div_eq_of_lt (by omega)
        have h2 : xs.length + 1 + n - 1 = xs.length + n := by omega
        rw [h1, h2, Nat.add_div_right _ hn]
        have h3 : xs.length / n = 0 := Nat.div_eq_of_lt (by omega)
        omega
      · have h2 : xs.length + 1 - n + n - 1 = xs.length := by omega
        have h4 : xs.length + 1 + n - 1 = xs.length + n := by omega
        rw [h2, h4, Nat.add_div_right _ hn]
termination_by l.length
decreasing_by
  all_goals simp [List.length_drop]; omega

/-- Unfolding the chunk loop on a nonempty chunk list. -/
theorem process_chunks_cons (aC : List Nat → Except PlexError Unit)
    (aS : Nat → Except PlexError Unit) (c : List Nat)
    (rest : List (List Nat)) :
    process_chunks aC aS (c :: rest) =
      match add_chunk_with_fallback aC aS c with
      | .error e => .error e
      | .ok missed =>
        match process_chunks aC aS rest with
        | .error e => .error e
        | .ok ms => .ok (missed ++ ms) := rfl

/-- Inversion of the chunk-with-fallback step: an error result can only
come from a non-spurious failure of the batched add. -/
theorem add_chunk_fallback_error_inv
    (aC : List Nat → Except PlexError Unit)
    (aS : Nat → Except PlexError Unit) (c : List Nat) (e : PlexError)
    (h : add_chunk_with_fallback aC aS c = .error e) :
    aC c = .error e ∧ is_spurious_empty e = false := by
  unfold add_chunk_with_fallback at h
  split at h
  · exact absurd h (by simp)
  · rename_i e2 heq
    split at h
    · exact absurd h (by simp)
    · rename_i hs
      injection h with he
      subst he
      exact ⟨heq, by simpa using hs⟩

/-- The spurious-empty fallback: a chunk rejected with the empty-batch
message is retried item by item, and the step returns the failing keys
instead of raising. -/
theorem add_chunk_fallback_spurious
    (aC : List Nat → Except PlexError Unit)
    (aS : Nat → Except PlexError Unit) (c : List Nat) (e : PlexError)
    (hC : aC c = .error e) (hs : is_spurious_empty e = true) :
    add_chunk_with_fallback aC aS c = .ok (single_failures aS c) := by
  unfold add_chunk_with_fallback
  rw [hC]
  simp [hs]

/-- Inversion of the chunk loop: an error result can only come from a chunk
whose batched add failed with a non-spurious error. -/
theorem process_chunks_error_source
    (aC : List Nat → Except PlexError Unit)
    (aS : Nat → Except PlexError Unit) (chs : List (List Nat))
    (e : PlexError) (h : process_chunks aC aS chs = .error e) :
    ∃ c ∈ chs, aC c = .error e ∧ is_spurious_empty e = false := by
  induction chs with
  | nil => exact absurd h (by simp [process_chunks])
  | cons c rest ih =>
    rw [process_chunks_cons] at h
    cases hf : add_chunk_with_fallback aC aS c with
    | error e2 =>
      rw [hf] at h
      simp only at h
      injection h with he
      subst he
      obtain ⟨h1, h2⟩ := add_chunk_fallback_error_inv aC aS c _ hf
      exact ⟨c, List.mem_cons_self c rest, h1, h2⟩
    | ok missed =>
      rw [hf] at h
      cases hr : process_chunks aC aS rest with
      | error e2 =>
        rw [hr] at h
        simp only at h
        injection h with he
        subst he
        obtain ⟨c2, hc2, h1, h2⟩ := ih hr
        exact ⟨c2, List.mem_cons_of_mem c hc2, h1, h2⟩
      | ok ms =>
        rw [hr] at h
        exact absurd h (by simp)

/-- C4: when a chunk-level add fails with the spurious empty-batch
`BadRequest`, the chunk does not raise: it degrades to per-item adds whose
individual failures are only collected as misses, and the loop continues
with the remaining chunks; a chunk-level failure of any other class
propagates out of the loop, and every error that escapes the loop is such a
non-spurious chunk-level failure. -/
theorem c4_error_policy :
    (∀ (aC : List Nat → Except PlexError Unit)
       (aS : Nat → Except PlexError Unit) (c : List Nat)
       (rest : List (List Nat)) (e : PlexError),
      aC c = .error e → is_spurious_empty e = true →
      process_chunks aC aS (c :: rest) =
        (process_chunks aC aS rest).map
          (fun ms => single_failures aS c ++ ms)) ∧
    (∀ (aC : List Nat → Except PlexError Unit)
       (aS : Nat → Except PlexError Unit) (c : List Nat) (e : PlexError),
      aC c = .error e → is_spurious_empty e = true →
      add_chunk_with_fallback aC aS c = .ok (single_failures aS c)) ∧
    (∀ (aC : List Nat → Except PlexError Unit)
       (aS : Nat → Except PlexError Unit) (c : List Nat)
       (rest : List (List Nat)) (e : PlexError),
      aC c = .error e → is_spurious_empty e = false →
      process_chunks aC aS (c :: rest) = .error e) ∧
    (∀ (aC : List Nat → Except PlexError Unit)
       (aS : Nat → Except PlexError Unit) (chs : List (List Nat))
       (e : PlexError),
      process_chunks aC aS chs = .error e →
      ∃ c ∈ chs, aC c = .error e ∧ is_spurious_empty e = false) := by
  refine ⟨?_, add_chunk_fallback_spurious, ?_, process_chunks_error_source⟩
  · intro aC aS c rest e hC hs
    rw [process_chunks_cons, add_chunk_fallback_spurious aC aS c e hC hs]
    cases hr : process_chunks aC aS rest <;> simp [hr, Except.map]
  · intro aC aS c rest e hC hs
    have hf : add_chunk_with_fallback aC aS c = .error e := by
      unfold add_chunk_with_fallback
      rw [hC]
      simp [hs]
    rw [process_chunks_cons, hf]

/-- C4 witness: a concrete chunk rejected with the spurious message degrades
to single adds and the loop result collects exactly the failing key. -/
theorem c4_error_policy_witness :
    api_chunk_demo [1, 2] =
      .error (.badRequest "Must include items to add") ∧
    is_spurious_empty (.badRequest "Must include items to add") = true ∧
    process_chunks api_chunk_demo api_single_demo ([1, 2] :: []) =
      (process_chunks api_chunk_demo api_single_demo []).map
        (fun ms => single_failures api_single_demo [1, 2] ++ ms) ∧
    process_chunks api_chunk_demo api_single_demo ([1, 2] :: []) =
      .ok [2] :=
  ⟨rfl, by decide,
    c4_error_policy.1 api_chunk_demo api_single_demo [1, 2] []
      (.badRequest "Must include items to add") rfl (by decide),
    by rfl⟩

/-- C3 witness: batch size 3 on a seven-element sequence gives chunks of
size at most 3 whose concatenation is the sequence, and there are
`ceil(7/3) = 3` of them. -/
theorem c3_batching_witness :
    0 < 3 ∧
    ((chunks 3 [1, 2, 3, 4, 5, 6, 7]).flatten = [1, 2, 3, 4, 5, 6, 7] ∧
     (∀ c ∈ chunks 3 [1, 2, 3, 4, 5, 6, 7], c.length ≤ 3) ∧
     (chunks 3 [1, 2, 3, 4, 5, 6, 7]).length = (7 + 3 - 1) / 3) :=
  ⟨by decide, c3_batching 3 (by decide) [1, 2, 3, 4, 5, 6, 7]⟩

/-- Packing the chunk-loop result into the function result never produces
the empty-create `RuntimeError` unless the chunk oracle itself does. -/
theorem process_then_pack_ne (pl : Playlist)
    (aC : Playlist → List Nat → Except PlexError Unit)
    (aS : Playlist → Nat → Except PlexError Unit)
    (chs : List (List Nat))
    (haC : ∀ c, aC pl c ≠ .error (.runtimeError no_items_msg)) :
    ((match process_chunks (aC pl) (aS pl) chs with
      | Except.error e => Except.error e
      | Except.ok missed => Except.ok (pl, missed)) :
      Except PlexError (Playlist × List Nat)) ≠
      Except.error (PlexError.runtimeError no_items_msg) := by
  cases hpc : process_chunks (aC pl) (aS pl) chs with
  | ok missed => simp
  | error e =>
    simp only
    intro hEq
    injection hEq with he
    subst he
    obtain ⟨c, _, h1, _⟩ := process_chunks_error_source _ _ _ _ hpc
    exact haC c h1

/-- A spurious empty-batch error is a `BadRequest`, never a
`RuntimeError`. -/
theorem spurious_is_bad_request (e : PlexError)
    (hs : is_spurious_empty e = true) : ∃ m, e = .badRequest m := by
  cases e with
  | badRequest m => exact ⟨m, rfl⟩
  | runtimeError m => simp [is_spurious_empty] at hs
  | otherError m => simp [is_spurious_empty] at hs

/-- C10: creating a new playlist (none found, or the found one deleted
under replace mode) with an empty item list fails with the dedicated
`RuntimeError`; with a nonempty item list that error is unreachable
(assuming the remote-API oracles do not themselves produce it); and the
caller only reaches the create call with a nonempty destination key list,
since `migrate_playlists` skips empty ones. -/
theorem c10_empty_create_guard :
    (∀ (createSeed : Nat → Except PlexError Playlist)
       (manualCreate : Nat → Except PlexError Unit)
       (findAfterManual findExisting : Option Playlist)
       (addChunk : Playlist → List Nat → Except PlexError Unit)
       (addSingle : Playlist → Nat → Except PlexError Unit)
       (replace : Bool) (batchSize : Nat),
      (replace = true ∨ findExisting = none) →
      create_playlist_with_batches findExisting createSeed manualCreate
        findAfterManual addChunk addSingle replace [] batchSize =
        .error (.runtimeError no_items_msg)) ∧
    (∀ (createSeed : Nat → Except PlexError Playlist)
       (manualCreate : Nat → Except PlexError Unit)
       (findAfterManual findExisting : Option Playlist)
       (addChunk : Playlist → List Nat → Except PlexError Unit)
       (addSingle : Playlist → Nat → Except PlexError Unit)
       (replace : Bool) (batchSize : Nat) (items : List Nat),
      items ≠ [] →
      (∀ k, createSeed k ≠ .error (.runtimeError no_items_msg)) →
      (∀ k, manualCreate k ≠ .error (.runtimeError no_items_msg)) →
      (∀ pl c, addChunk pl c ≠ .error (.runtimeError no_items_msg)) →
      create_playlist_with_batches findExisting createSeed manualCreate
        findAfterManual addChunk addSingle replace items batchSize ≠
        .error (.runtimeError no_items_msg)) ∧
    (∀ (destKeys : List Nat)
       (f : List Nat → Except PlexError (Playlist × List Nat))
       (r : Except PlexError (Playlist × List Nat)),
      migrate_playlist_step destKeys f = some r → destKeys ≠ []) := by
  refine ⟨?_, ?_, ?_⟩
  · intro cS mC fAM fE aC aS replace bS hOr
    have hex : (if replace then none else fE) = (none : Option Playlist) := by
      rcases hOr with h | h
      · simp [h]
      · cases replace <;> simp [h]
    unfold create_playlist_with_batches
    rw [hex]
  · intro cS mC fAM fE aC aS replace bS items hne hcS hmC haC
    unfold create_playlist_with_batches
    cases hex : (if replace then none else fE) with
    | some pl => exact process_then_pack_ne pl aC aS _ (fun c => haC pl c)
    | none =>
      cases items with
      | nil => exact absurd rfl hne
      | cons seed rest =>
        simp only
        cases hseed : cS seed with
        | ok pl =>
          simp only
          exact process_then_pack_ne pl aC aS _ (fun c => haC pl c)
        | error e =>
          simp only
          cases hsp : is_spurious_empty e with
          | false =>
            rw [if_neg (by simp)]
            intro hEq
            injection hEq with he
            exact hcS seed (he ▸ hseed)
          | true =>
            rw [if_pos rfl]
            cases hmc : mC seed with
            | error e2 =>
              simp only
              intro hEq
              injection hEq with he
              exact hmC seed (he ▸ hmc)
            | ok u =>
              simp only
              cases fAM with
              | some pl =>
                simp only
                exact process_then_pack_ne pl aC aS _ (fun c => haC pl c)
              | none =>
                simp only
                intro hEq
                injection hEq with he
                obtain ⟨m, hm⟩ := spurious_is_bad_request e hsp
                rw [hm] at he
                exact PlexError.noConfusion he
  · intro destKeys f r h hEq
    rw [hEq] at h
    simp [migrate_playlist_step] at h

/-- C10 witness: with always-succeeding oracles, an empty item list in
replace mode yields exactly the empty-create error, while a one-element
list does not. -/
theorem c10_empty_create_guard_witness :
    ((true = true ∨ (none : Option Playlist) = none) ∧
      create_playlist_with_batches none seed_create_demo manual_create_demo
        none add_chunk_demo add_single_demo true [] 100 =
        .error (.runtimeError no_items_msg)) ∧
    (([5] : List Nat) ≠ [] ∧
      create_playlist_with_batches none seed_create_demo manual_create_demo
        none add_chunk_demo add_single_demo true [5] 100 ≠
        .error (.runtimeError no_items_msg)) :=
  ⟨⟨Or.inl rfl,
      c10_empty_create_guard.1 seed_create_demo manual_create_demo none none
        add_chunk_demo add_single_demo true 100 (Or.inl rfl)⟩,
   ⟨by decide,
      c10_empty_create_guard.2.1 seed_create_demo manual_create_demo none
        none add_chunk_demo add_single_demo true 100 [5] (by decide)
        (by intro k h; simp [seed_create_demo] at h)
        (by intro k h; simp [manual_create_demo] at h)
        (by intro pl c h; simp [add_chunk_demo] at h)⟩⟩

/-- C8: the resolution label `"720p"` converts to height exactly 720, and
the SD scan yields precisely the items whose maximum height is known and
strictly below the threshold; an item whose maximum height equals (or
exceeds) the threshold is classified HD and not yielded, for every
threshold. -/
theorem c8_height_classification :
    res_to_height (some "720p") = some 720 ∧
    (∀ (items : List MovieItem) (t : Nat) (mv : MovieItem) (h : Nat),
      item_max_height mv = some h →
      (((mv, h) ∈ find_sd_items items t) ↔ (mv ∈ items ∧ h < t)) ∧
      (t ≤ h → ∀ h2, (mv, h2) ∉ find_sd_items items t)) := by
  refine ⟨by decide, ?_⟩
  intro items t mv h hmax
  constructor
  · constructor
    · intro hin
      obtain ⟨a, ha, heq⟩ := List.mem_filterMap.mp hin
      cases hma : item_max_height a with
      | none => rw [hma] at heq; exact absurd heq (by simp)
      | some mh =>
        rw [hma] at heq
        simp only at heq
        by_cases hlt : mh < t
        · rw [if_pos hlt] at heq
          injection heq with hp
          injection hp with h1 h2
          subst h1
          subst h2
          exact ⟨ha, hlt⟩
        · rw [if_neg hlt] at heq
          exact absurd heq (by simp)
    · rintro ⟨hin, hlt⟩
      refine List.mem_filterMap.mpr ⟨mv, hin, ?_⟩
      rw [hmax]
      simp [hlt]
  · intro hle h2 hin
    obtain ⟨a, ha, heq⟩ := List.mem_filterMap.mp hin
    cases hma : item_max_height a with
    | none => rw [hma] at heq; exact absurd heq (by simp)
    | some mh =>
      rw [hma] at heq
      simp only at heq
      by_cases hlt : mh < t
      · rw [if_pos hlt] at heq
        injection heq with hp
        injection hp with h1 h3
        subst h1
        rw [hma] at hmax
        injection hmax with h4
        omega
      · rw [if_neg hlt] at heq
        exact absurd heq (by simp)

/-- C8 witness: a movie whose only media version has container height 480
is classified SD at threshold 720 and is yielded by the scan; at a
threshold equal to its height it would not be. -/
theorem c8_height_classification_witness :
    item_max_height mv480 = some 480 ∧
    (((mv480, 480) ∈ find_sd_items [mv480] 720) ↔
      (mv480 ∈ [mv480] ∧ 480 < 720)) ∧
    (720 ≤ 480 → ∀ h2, (mv480, h2) ∉ find_sd_items [mv480] 720) :=
  ⟨rfl,
   (c8_height_classification.2 [mv480] 720 mv480 480 rfl).1,
   (c8_height_classification.2 [mv480] 720 mv480 480 rfl).2⟩

end PlexTools
